import Mathlib

/-!
# Verification of splurge-tabular's header-merge / row-normalization / type-inference core

Shallow embedding of the `splurge_tabular` package:
* `src/splurge_tabular/tabular_data_model.py` (`TabularDataModel`, `_TypedView`)
* `src/splurge_tabular/streaming_tabular_data_model.py` (`StreamingTabularDataModel`)
* the `tabular_utils` module (`normalize_rows`, `process_headers`, ...) and the
  vendored `splurge_typer` collaborator (`String.is_empty_like`, `String.is_none_like`,
  `TypeInference.profile_values`), whose sources are not shipped in this tree and are
  therefore modelled from the specification (each such definition is marked
  `Modelled from the spec:` in its doc comment).

Python rows are `List String`, tables are `List (List String)`; Python exceptions
become an explicit error type and `Except`; Python `dict` is modelled by explicit
insertion-ordered association lists (for `row()`) and by last-write-wins functional
update (for the column index map).
-/

namespace SplurgeTabular

/-- Errors raised by the modelled code paths.  `splurgeLookupError`,
`splurgeValueError` and `splurgeTypeError` model the package's exception classes;
`indexError` models Python's built-in `IndexError` raised by out-of-range list
subscripts such as `row[col_idx]`. -/
inductive PyError where
  | splurgeLookupError
  | splurgeValueError
  | splurgeTypeError
  | indexError
deriving DecidableEq, Repr

/-- The `DataType` enumeration of the vendored `splurge_typer` collaborator
(member set given in spec section 3). -/
inductive DataType where
  | INTEGER
  | FLOAT
  | BOOLEAN
  | DATE
  | DATETIME
  | TIME
  | STRING
  | MIXED
  | EMPTY
  | NONE
deriving DecidableEq, Repr

/-- Python `str.strip()` on a character list: drop leading and trailing
whitespace.  (Lean's builtin `String.trim` is not kernel-reducible, so the
Python string primitives are modelled over `String.data`.) -/
def trimChars (cs : List Char) : List Char :=
  ((cs.dropWhile Char.isWhitespace).reverse.dropWhile Char.isWhitespace).reverse

/-- Python `str.strip()`. -/
def pyStrip (s : String) : String :=
  String.mk (trimChars s.data)

/-- Python `str.lower()`. -/
def pyLower (s : String) : String :=
  String.mk (s.data.map Char.toLower)

/-- Python `str.split(sep)` for a one-character separator, on character lists. -/
def splitOnChar (sep : Char) (cs : List Char) : List (List Char) :=
  let r := cs.foldr
    (fun c acc => if c = sep then ([], acc.1 :: acc.2) else (c :: acc.1, acc.2))
    ([], [])
  r.1 :: r.2

/-- Modelled from the spec: `String.is_empty_like` of the vendored `splurge_typer`
(source not in tree).  "Empty-like value: a blank or whitespace-only string." -/
def is_empty_like (s : String) : Bool :=
  pyStrip s = ""

/-- Modelled from the spec: `String.is_none_like` of the vendored `splurge_typer`
(source not in tree).  "None-like value: a string token recognized as representing
an absent value (e.g., NULL, N/A)", case-insensitive. -/
def is_none_like (s : String) : Bool :=
  ["none", "null", "n/a"].contains (pyLower (pyStrip s))

/-- Strip one optional leading sign from a numeric token. -/
def dropSign : List Char → List Char
  | c :: rest => if c = '-' || c = '+' then rest else c :: rest
  | [] => []

/-- Modelled from the spec: a substantive value "parses as a base-10 integer"
(optional sign, then decimal digits). -/
def isIntegerToken (s : String) : Bool :=
  let t := dropSign (trimChars s.data)
  decide (t.length > 0) && t.all Char.isDigit

/-- Modelled from the spec: a substantive value "parses as a decimal number" and is
"non-integral-looking" (has a decimal point). -/
def isFloatToken (s : String) : Bool :=
  let t := dropSign (trimChars s.data)
  match splitOnChar '.' t with
  | [a, b] => decide ((a ++ b).length > 0) && a.all Char.isDigit && b.all Char.isDigit
  | _ => false

/-- Modelled from the spec: "a recognized boolean token (`true`/`false`,
case-insensitive)". -/
def isBoolToken (s : String) : Bool :=
  ["true", "false"].contains (pyLower (pyStrip s))

/-- Modelled from the spec: the DATE pattern, taken as ISO `YYYY-MM-DD`. -/
def isDateToken (cs : List Char) : Bool :=
  match splitOnChar '-' cs with
  | [y, m, d] =>
      decide (y.length = 4) && decide (m.length = 2) && decide (d.length = 2) &&
        y.all Char.isDigit && m.all Char.isDigit && d.all Char.isDigit
  | _ => false

/-- Modelled from the spec: the TIME pattern, taken as `HH:MM` or `HH:MM:SS`. -/
def isTimeToken (cs : List Char) : Bool :=
  match splitOnChar ':' cs with
  | [h, m] => decide (h.length = 2) && decide (m.length = 2) && h.all Char.isDigit && m.all Char.isDigit
  | [h, m, sec] =>
      decide (h.length = 2) && decide (m.length = 2) && decide (sec.length = 2) &&
        h.all Char.isDigit && m.all Char.isDigit && sec.all Char.isDigit
  | _ => false

/-- Modelled from the spec: the DATETIME pattern, a DATE and a TIME joined by
`T` or a space. -/
def isDatetimeToken (s : String) : Bool :=
  let t := trimChars s.data
  let parts := if (splitOnChar 'T' t).length = 2 then splitOnChar 'T' t else splitOnChar ' ' t
  match parts with
  | [d, tm] => isDateToken d && isTimeToken tm
  | _ => false

/-- Modelled from the spec: per-value classification used by the type-inference
engine — none-like, empty-like, or the substantive type the value parses as
(spec section 4.3), defaulting to STRING. -/
def inferValueType (s : String) : DataType :=
  if is_none_like s then DataType.NONE
  else if is_empty_like s then DataType.EMPTY
  else if isBoolToken s then DataType.BOOLEAN
  else if isIntegerToken s then DataType.INTEGER
  else if isFloatToken s then DataType.FLOAT
  else if isDatetimeToken s then DataType.DATETIME
  else if isDateToken (trimChars s.data) then DataType.DATE
  else if isTimeToken (trimChars s.data) then DataType.TIME
  else DataType.STRING

/-- Modelled from the spec: `TypeInference.profile_values` of the vendored
`splurge_typer` (source not in tree).  Classifies every value and combines the
distinct per-value types: a single consistent type is the result; a mix of
INTEGER and FLOAT is FLOAT ("every substantive value parses as a decimal number
and at least one is non-integral-looking"); any other mixture — including
empty/none markers alongside substantive values, which the full-value-set
fallback of spec section 4.3 may see — is MIXED. -/
def profile_values (values : List String) : DataType :=
  match values with
  | [] => DataType.EMPTY
  | _ =>
    let types := (values.map inferValueType).dedup
    match types with
    | [t] => t
    | _ =>
        if types.all (fun t => t = DataType.INTEGER || t = DataType.FLOAT) then DataType.FLOAT
        else DataType.MIXED

/-! ## tabular_utils (module source not in tree; modelled from the spec) -/

/-- Modelled from the spec: `tabular_utils.should_skip_row` — "a row is 'empty' if
every cell, after trimming whitespace, is the empty string (or the row itself is
zero-length)". -/
def should_skip_row (row : List String) : Bool :=
  row.all (fun c => pyStrip c = "")

/-- Modelled from the spec: `tabular_utils.auto_column_names` — positional
placeholder names `column_<i>`. -/
def auto_column_names (n : Nat) : List String :=
  (List.range n).map (fun i => s!"column_{i}")

/-- Modelled from the spec: `tabular_utils.normalize_rows` (spec section 4.1).
Drop empty rows when `skip_empty_rows`; target width is the maximum cell count
across surviving rows (0 if none survive); pad each surviving row on the right
with empty-string cells to the target width, preserving order. -/
def normalize_rows (rows : List (List String)) (skip_empty_rows : Bool) : List (List String) :=
  let surviving := if skip_empty_rows then rows.filter (fun r => !(should_skip_row r)) else rows
  let width := surviving.foldl (fun acc r => max acc r.length) 0
  surviving.map (fun r => r ++ List.replicate (width - r.length) "")

/-- Maximum row length across a list of rows (used by header processing). -/
def maxRowLength (rows : List (List String)) : Nat :=
  rows.foldl (fun acc r => max acc r.length) 0

/-- Modelled from the spec: the merged name at position `i` for multi-row headers
(spec section 4.2) — join the trimmed cells at position `i` across the header
rows with `_`, skipping rows whose cell there is missing or empty after
trimming; `column_<i>` when every row is empty there. -/
def mergedNameAt (headerData : List (List String)) (i : Nat) : String :=
  let parts := headerData.filterMap (fun row =>
    match row.get? i with
    | some c => if pyStrip c = "" then Option.none else some (pyStrip c)
    | none => Option.none)
  if parts.isEmpty then s!"column_{i}" else String.intercalate "_" parts

/-- Modelled from the spec: `tabular_utils.process_headers` (spec section 4.2,
behaviour pinned down by `tests/unit/test_tabular_utils.py`).
`header_rows = 0` or empty input gives `([], [])`; a single header row is
returned unchanged with column names the trimmed first-row cells (placeholders
for empty or missing cells, out to the widest row); multiple header rows
collapse to one merged row of underscore-joined names. -/
def process_headers (headerData : List (List String)) (header_rows : Nat) :
    List (List String) × List String :=
  if header_rows = 0 || headerData.isEmpty then ([], [])
  else if header_rows = 1 then
    let width := maxRowLength headerData
    let first := headerData.headD []
    let names := (List.range width).map (fun i =>
      match first.get? i with
      | some c => if pyStrip c = "" then s!"column_{i}" else pyStrip c
      | none => s!"column_{i}")
    (headerData, names)
  else
    let width := maxRowLength headerData
    let merged := (List.range width).map (fun i => mergedNameAt headerData i)
    ([merged], merged)

/-- Claim C2's wording of the merged name at position `i`: the underscore-join of
the trimmed cells at position `i` across the header rows, skipping cells that
are empty after trimming, with rows shorter than the widest treated as having
empty cells at the missing positions; `column_<i>` when every row's cell is
empty there. -/
def claimMergedName (headerData : List (List String)) (i : Nat) : String :=
  let parts := (headerData.map (fun row => pyStrip (row.getD i ""))).filter (fun c => c ≠ "")
  if parts = [] then s!"column_{i}" else String.intercalate "_" parts

/-! ## TabularDataModel (src/splurge_tabular/tabular_data_model.py) -/

/-- Iterations of the `while len(self._column_names) < self._column_count:
append(f"column_{len}")` loop; each pass appends one placeholder, so the
remaining iteration count is the structural fuel. -/
def padColumnNamesAux : Nat → List String → List String
  | 0, names => names
  | k + 1, names => padColumnNamesAux k (names ++ [s!"column_{names.length}"])

/-- The `while len(self._column_names) < self._column_count: append(f"column_{len}")`
loop of `TabularDataModel.__init__` (also the auto-extension loop of the
streaming model's `__iter__`). -/
def padColumnNames (names : List String) (count : Nat) : List String :=
  padColumnNamesAux (count - names.length) names

/-- The fields of a constructed `TabularDataModel` that the claims touch
(`_column_names`, normalized `_data`, `_column_count`, `_row_count`).  The type
caches are omitted: they are populated idempotently with the same values the
cache-free recomputation yields. -/
structure Model where
  columnNames : List String
  data : List (List String)
  columnCount : Nat
  rowCount : Nat
deriving DecidableEq, Repr

/-- Body of `TabularDataModel.__init__` after its validation checks
(lines 77-98 of tabular_data_model.py). -/
def buildModel (data : List (List String)) (header_rows : Nat) (skip_empty_rows : Bool) :
    Model :=
  let headerData := if header_rows > 0 then data.take header_rows else []
  let d :=
    if header_rows > 0 then normalize_rows (data.drop header_rows) skip_empty_rows
    else normalize_rows data skip_empty_rows
  let columnCount := if d.length > 0 then (d.headD []).length else 0
  let rowCount := d.length
  let processed := process_headers headerData header_rows
  let names := padColumnNames processed.2 columnCount
  { columnNames := names, data := d, columnCount := columnCount, rowCount := rowCount }

/-- `TabularDataModel.__init__`: empty input data raises a value error; the
type-shape checks are enforced by the embedding's types and `header_rows >= 0`
by `Nat`. -/
def TabularDataModel.init (data : List (List String)) (header_rows : Nat)
    (skip_empty_rows : Bool) : Except PyError Model :=
  if data.isEmpty then Except.error PyError.splurgeValueError
  else Except.ok (buildModel data header_rows skip_empty_rows)

/-- The dict comprehension `{name: i for i, name in enumerate(self._column_names)}`
modelled as successive last-write-wins functional updates, starting from the
empty map, with `start` the enumeration counter. -/
def buildIndexMapFrom (names : List String) (start : Nat) (acc : String → Option Nat) :
    String → Option Nat :=
  match names with
  | [] => acc
  | n :: rest => buildIndexMapFrom rest (start + 1) (fun k => if k = n then some start else acc k)

/-- Position of the last occurrence of `key` in `names` (the index a Python dict
comprehension over `enumerate(names)` ends up storing for a duplicated name). -/
def findLastIdx (names : List String) (key : String) : Option Nat :=
  match names with
  | [] => Option.none
  | n :: rest =>
    match findLastIdx rest key with
    | some j => some (j + 1)
    | none => if n = key then some 0 else Option.none

/-- `self._column_index_map` of `TabularDataModel.__init__`. -/
def Model.columnIndexMap (m : Model) : String → Option Nat :=
  buildIndexMapFrom m.columnNames 0 (fun _ => Option.none)

/-- `TabularDataModel.column_index`: membership test against `_column_names`,
then dict lookup in `_column_index_map`. -/
def Model.columnIndex (m : Model) (name : String) : Except PyError Nat :=
  if name ∈ m.columnNames then
    match m.columnIndexMap name with
    | some i => Except.ok i
    | none => Except.error PyError.splurgeLookupError
  else Except.error PyError.splurgeLookupError

/-- The comprehension `[row[col_idx] for row in self._data]`, which raises
`IndexError` when some row is shorter than `col_idx + 1`. -/
def pyColumn (rows : List (List String)) (i : Nat) : Except PyError (List String) :=
  match rows with
  | [] => Except.ok []
  | r :: rs =>
    match r.get? i with
    | some v =>
      match pyColumn rs i with
      | Except.ok vs => Except.ok (v :: vs)
      | Except.error e => Except.error e
    | none => Except.error PyError.indexError

/-- `TabularDataModel.column_values`. -/
def Model.columnValues (m : Model) (name : String) : Except PyError (List String) := do
  let colIdx ← m.columnIndex name
  pyColumn m.data colIdx

/-- `TabularDataModel.column_type`: inference over the column's full value list
(the `_column_types` cache only memoizes this same result). -/
def Model.columnType (m : Model) (name : String) : Except PyError DataType := do
  let colIdx ← m.columnIndex name
  let values ← pyColumn m.data colIdx
  pure (profile_values values)

/-- `TabularDataModel.cell_value`.  `row_index` is an `Int` so that the
negative-index check is meaningful. -/
def Model.cellValue (m : Model) (name : String) (row_index : Int) : Except PyError String := do
  let colIdx ← m.columnIndex name
  if row_index < 0 || row_index ≥ (m.rowCount : Int) then
    Except.error PyError.splurgeLookupError
  else
    match m.data.get? row_index.toNat with
    | some row =>
      match row.get? colIdx with
      | some v => Except.ok v
      | none => Except.error PyError.indexError
    | none => Except.error PyError.indexError

/-- `TabularDataModel.row_as_list`. -/
def Model.rowAsList (m : Model) (index : Int) : Except PyError (List String) :=
  if index < 0 || index ≥ (m.rowCount : Int) then Except.error PyError.splurgeLookupError
  else
    match m.data.get? index.toNat with
    | some r => Except.ok r
    | none => Except.error PyError.indexError

/-- `TabularDataModel.row_as_tuple` (`tuple(self._data[index])`; tuples and lists
are both `List String` here). -/
def Model.rowAsTuple (m : Model) (index : Int) : Except PyError (List String) :=
  if index < 0 || index ≥ (m.rowCount : Int) then Except.error PyError.splurgeLookupError
  else
    match m.data.get? index.toNat with
    | some r => Except.ok r
    | none => Except.error PyError.indexError

/-- Python `dict` built from a pair list, as an insertion-ordered association
list: a duplicated key keeps its first position and its last value. -/
def dictOfPairs : List (String × String) → List (String × String)
  | [] => []
  | (k, v) :: rest =>
    let restD := dictOfPairs rest
    match restD.find? (fun p => p.1 = k) with
    | some p => (k, p.2) :: restD.filter (fun q => q.1 ≠ k)
    | none => (k, v) :: restD

/-- `TabularDataModel.row`: the padded row and the dict comprehension
`{self._column_names[i]: padded_row[i] for i in range(self._column_count)}`. -/
def Model.row (m : Model) (index : Int) : Except PyError (List (String × String)) :=
  if index < 0 || index ≥ (m.rowCount : Int) then Except.error PyError.splurgeLookupError
  else
    match m.data.get? index.toNat with
    | some rowData =>
      let padded := rowData ++ List.replicate (m.columnCount - rowData.length) ""
      Except.ok (dictOfPairs ((List.range m.columnCount).map
        (fun i => (m.columnNames.getD i "", padded.getD i ""))))
    | none => Except.error PyError.indexError

/-! ## _TypedView (src/splurge_tabular/tabular_data_model.py, lines 341-637) -/

/-- Core of `_TypedView.column_type` (lines 626-637): infer over the non-empty,
non-none subset first; keep that result unless it is MIXED or the subset is
empty; otherwise infer over the full value list.  The `_typed_column_types`
cache only memoizes this result. -/
def typedColumnType (values : List String) : DataType :=
  let non_empty_values := values.filter (fun v => !(is_empty_like v) && !(is_none_like v))
  if non_empty_values.isEmpty then profile_values values
  else
    let inferred := profile_values non_empty_values
    if inferred ≠ DataType.MIXED then inferred
    else profile_values values

/-- `_TypedView.column_type(name)`: `values = self._model.column_values(name)`
followed by the subset-preference inference. -/
def Model.typedViewColumnType (m : Model) (name : String) : Except PyError DataType := do
  let values ← m.columnValues name
  pure (typedColumnType values)

/-- Claim C1's wording of the typed view's column-type resolution, stated
independently of the source structure: inference over the substantive subset
wins when the subset is non-empty and its inference is not MIXED; otherwise the
inference over the full value list is the result. -/
def claimTypedRule (values : List String) : DataType :=
  let substantive := values.filter (fun v => !(is_empty_like v) && !(is_none_like v))
  if substantive ≠ [] ∧ profile_values substantive ≠ DataType.MIXED then
    profile_values substantive
  else profile_values values

/-- Python values stored as per-type conversion defaults or supplied as
`type_configs` overrides.  The override logic never inspects these, so floats
are carried as exact decimal literals (`pyFloat 0 0` is `0.0`). -/
inductive PyVal where
  | pyNone
  | pyBool (b : Bool)
  | pyInt (n : Int)
  | pyFloat (mantissa : Int) (exponent : Int)
  | pyStr (s : String)
deriving DecidableEq, Repr

/-- One entry of `_TypedView._type_defaults`: the `"empty"` and `"none"`
conversion defaults of a `DataType`. -/
structure TypeDefault where
  emptyDefault : PyVal
  noneDefault : PyVal
deriving DecidableEq, Repr

/-- The `_type_defaults` table of `_TypedView.__init__` (lines 364-375). -/
def defaultTypeDefaults : DataType → TypeDefault
  | DataType.BOOLEAN => ⟨PyVal.pyBool false, PyVal.pyBool false⟩
  | DataType.INTEGER => ⟨PyVal.pyInt 0, PyVal.pyInt 0⟩
  | DataType.FLOAT => ⟨PyVal.pyFloat 0 0, PyVal.pyFloat 0 0⟩
  | DataType.DATE => ⟨PyVal.pyNone, PyVal.pyNone⟩
  | DataType.DATETIME => ⟨PyVal.pyNone, PyVal.pyNone⟩
  | DataType.STRING => ⟨PyVal.pyStr "", PyVal.pyStr ""⟩
  | DataType.MIXED => ⟨PyVal.pyStr "", PyVal.pyNone⟩
  | DataType.EMPTY => ⟨PyVal.pyStr "", PyVal.pyStr ""⟩
  | DataType.NONE => ⟨PyVal.pyNone, PyVal.pyNone⟩
  | DataType.TIME => ⟨PyVal.pyNone, PyVal.pyNone⟩

/-- The `override_none` set of `_TypedView.__init__` (line 381). -/
def overrideNoneTypes : List DataType := [DataType.BOOLEAN, DataType.MIXED]

/-- The override loop of `_TypedView.__init__` (lines 380-388): each
`(dt, override_value)` item replaces the `"none"` default when `dt` is BOOLEAN
or MIXED and the `"empty"` default otherwise.  (The `dt not in
self._type_defaults` guard never fires: the defaults table has every
`DataType` as a key.) -/
def applyTypeConfigs (defaults : DataType → TypeDefault)
    (type_configs : List (DataType × PyVal)) : DataType → TypeDefault :=
  type_configs.foldl
    (fun acc p =>
      if p.1 ∈ overrideNoneTypes then
        fun dt => if dt = p.1 then ⟨(acc dt).emptyDefault, p.2⟩ else acc dt
      else
        fun dt => if dt = p.1 then ⟨p.2, (acc dt).noneDefault⟩ else acc dt)
    defaults

/-! ## StreamingTabularDataModel (src/splurge_tabular/streaming_tabular_data_model.py) -/

/-- Header collection of `_initialize_from_stream` (lines 104-125): pull rows
chunk by chunk until `header_rows` rows are collected; the unread remainder of
the chunk that completed the header becomes the raw buffer; later chunks stay
on the stream.  Returns `(header rows, raw buffered rows, remaining chunks)`. -/
def splitHeaderRows : Nat → List (List (List String)) →
    List (List String) × List (List String) × List (List (List String))
  | _, [] => ([], [], [])
  | need, chunk :: rest =>
    if chunk.length < need then
      let (h, buf, rem) := splitHeaderRows (need - chunk.length) rest
      (chunk ++ h, buf, rem)
    else
      (chunk.take need, chunk.drop need, rest)

/-- The mutable state of a `StreamingTabularDataModel`.  The underlying stream
is a finite list of chunks; consumed chunks are dropped from `chunks`, so a
drained stream is `chunks = []`.  The `_column_index_map` mirrors
`columnNames` and is omitted. -/
structure StreamingModel where
  chunks : List (List (List String))
  headerRows : Nat
  skipEmptyRows : Bool
  columnNames : List String
  buffer : List (List String)
  maxColumns : Nat
  isInitialized : Bool
deriving DecidableEq, Repr

/-- `StreamingTabularDataModel._initialize_from_stream` (on a fresh model):
collect header rows, buffer the rest of the final header chunk (dropping empty
rows when `skip_empty_rows`), process headers — or, with no header rows,
generate placeholder names from the first buffered row. -/
def initializeFromStream (chunks : List (List (List String))) (header_rows : Nat)
    (skip_empty_rows : Bool) : StreamingModel :=
  let (headerData, rawBuf, rest) := splitHeaderRows header_rows chunks
  let buffer := if skip_empty_rows then rawBuf.filter (fun r => !(should_skip_row r)) else rawBuf
  let (maxColumns, columnNames) :=
    if header_rows > 0 then (0, (process_headers headerData header_rows).2)
    else if !buffer.isEmpty then
      ((buffer.headD []).length, auto_column_names (buffer.headD []).length)
    else (0, [])
  { chunks := rest
    headerRows := header_rows
    skipEmptyRows := skip_empty_rows
    columnNames := columnNames
    buffer := buffer
    maxColumns := maxColumns
    isInitialized := true }

/-- `StreamingTabularDataModel.__init__`: `chunk_size` below the floor of 100
raises a value error (`stream is None` and `header_rows < 0` are excluded by
the embedding's types). -/
def StreamingTabularDataModel.init (chunks : List (List (List String))) (header_rows : Nat)
    (skip_empty_rows : Bool) (chunk_size : Nat) : Except PyError StreamingModel :=
  if chunk_size < 100 then Except.error PyError.splurgeValueError
  else Except.ok (initializeFromStream chunks header_rows skip_empty_rows)

/-- Row normalization inside `__iter__` (lines 195-202 and 213-220): pad a short
row to the known width, or auto-extend the column names (appending
`column_<len>` placeholders) when the row is wider.  Returns the yielded row
and the column names in force at the moment of the yield. -/
def yieldRow (names : List String) (row : List String) : List String × List String :=
  if row.length < names.length then (row ++ List.replicate (names.length - row.length) "", names)
  else if names.length < row.length then (row, padColumnNames names row.length)
  else (row, names)

/-- Yield a list of rows in sequence, threading the column-name state; each
output pair is `(yielded row, column names at that yield)`. -/
def yieldAll (names : List String) (rows : List (List String)) :
    List (List String × List String) × List String :=
  match rows with
  | [] => ([], names)
  | r :: rs =>
    let (row, names') := yieldRow names r
    let (out, namesF) := yieldAll names' rs
    ((row, names') :: out, namesF)

/-- A complete run of `StreamingTabularDataModel.__iter__`: yield the buffered
rows (then clear the buffer), then every row of every remaining chunk — with
empty rows skipped in the stream phase when `skip_empty_rows` — exhausting the
stream.  Returns the yields (row with the column names at that yield) and the
state after iteration. -/
def StreamingModel.iterate (m : StreamingModel) :
    List (List String × List String) × StreamingModel :=
  let (out1, names1) := yieldAll m.columnNames m.buffer
  let streamRows := m.chunks.flatten
  let streamRows :=
    if m.skipEmptyRows then streamRows.filter (fun r => !(should_skip_row r)) else streamRows
  let (out2, names2) := yieldAll names1 streamRows
  (out1 ++ out2, { m with buffer := [], chunks := [], columnNames := names2 })

/-- `StreamingTabularDataModel.reset_stream` (lines 250-258): clear the buffer
and the initialization flag; the stream itself is untouched. -/
def StreamingModel.resetStream (m : StreamingModel) : StreamingModel :=
  { m with buffer := [], isInitialized := false }

/-- `StreamingTabularDataModel.clear_buffer` (lines 241-248). -/
def StreamingModel.clearBuffer (m : StreamingModel) : StreamingModel :=
  { m with buffer := [] }

/-! ## Helper lemmas -/

theorem padColumnNamesAux_length (k : Nat) :
    ∀ names : List String, (padColumnNamesAux k names).length = names.length + k := by
  induction k with
  | zero => intro names; simp [padColumnNamesAux]
  | succ n ih =>
    intro names
    simp only [padColumnNamesAux, ih]
    simp
    omega

theorem padColumnNames_length (names : List String) (count : Nat) :
    (padColumnNames names count).length = max names.length count := by
  simp only [padColumnNames, padColumnNamesAux_length]
  omega

theorem foldl_max_acc_le (l : List (List String)) :
    ∀ acc : Nat, acc ≤ l.foldl (fun a r => max a r.length) acc := by
  induction l with
  | nil => intro acc; simp
  | cons y ys ih =>
    intro acc
    simp only [List.foldl_cons]
    exact Nat.le_trans (Nat.le_max_left _ _) (ih _)

theorem foldl_max_le_mem (l : List (List String)) (acc : Nat) :
    ∀ r ∈ l, r.length ≤ l.foldl (fun a r => max a r.length) acc := by
  induction l generalizing acc with
  | nil => intro r hr; simp at hr
  | cons x xs ih =>
    intro r hr
    rcases List.mem_cons.mp hr with h | h
    · subst h
      simp only [List.foldl_cons]
      exact Nat.le_trans (Nat.le_max_right _ _) (foldl_max_acc_le _ _)
    · exact ih (max acc x.length) r h

theorem foldl_max_all_eq (l : List (List String)) (W : Nat)
    (hall : ∀ r ∈ l, r.length = W) (hne : l ≠ []) :
    l.foldl (fun a r => max a r.length) 0 = W := by
  have haux : ∀ (l' : List (List String)) (acc : Nat), (∀ r ∈ l', r.length = W) →
      l'.foldl (fun a r => max a r.length) acc = if l'.isEmpty then acc else max acc W := by
    intro l'
    induction l' with
    | nil => intro acc _; simp
    | cons x xs ih =>
      intro acc hall'
      have hx : x.length = W := hall' x (List.mem_cons_self _ _)
      simp only [List.foldl_cons, hx, ih _ (fun r hr => hall' r (List.mem_cons_of_mem _ hr))]
      cases hxs : xs.isEmpty
      · simp
      · simp
  rw [haux l 0 hall]
  cases l with
  | nil => exact absurd rfl hne
  | cons x xs => simp

/-- Every row produced by `normalize_rows` has the common target width. -/
theorem normalize_rows_mem_length (rows : List (List String)) (skip : Bool) :
    ∀ r ∈ normalize_rows rows skip, ∀ r2 ∈ normalize_rows rows skip, r.length = r2.length := by
  intro r hr r2 hr2
  simp only [normalize_rows, List.mem_map] at hr hr2
  obtain ⟨s, hs, rfl⟩ := hr
  obtain ⟨s2, hs2, rfl⟩ := hr2
  have h1 := foldl_max_le_mem
    (if skip then rows.filter (fun r => !(should_skip_row r)) else rows) 0 s hs
  have h2 := foldl_max_le_mem
    (if skip then rows.filter (fun r => !(should_skip_row r)) else rows) 0 s2 hs2
  simp only [List.length_append, List.length_replicate]
  omega

theorem normalize_rows_head_length (rows : List (List String)) (skip : Bool) :
    ∀ r ∈ normalize_rows rows skip,
      r.length = if (normalize_rows rows skip).length > 0
        then ((normalize_rows rows skip).headD []).length else 0 := by
  intro r hrmem
  cases h : normalize_rows rows skip with
  | nil =>
    rw [h] at hrmem
    simp at hrmem
  | cons x xs =>
    have hx : x ∈ normalize_rows rows skip := by
      rw [h]
      exact List.mem_cons_self x xs
    have := normalize_rows_mem_length rows skip r hrmem x hx
    simp [this]

/-- Every row of a constructed in-memory model has exactly `columnCount` cells. -/
theorem buildModel_row_length (data : List (List String)) (hr : Nat) (skip : Bool) :
    ∀ r ∈ (buildModel data hr skip).data, r.length = (buildModel data hr skip).columnCount := by
  intro r hrmem
  simp only [buildModel] at hrmem ⊢
  by_cases hhr : hr > 0 <;> simp only [hhr, if_pos, if_neg, if_true, if_false] at hrmem ⊢ <;>
    exact normalize_rows_head_length _ _ r hrmem

/-! ## Claims -/

/-- Claim C10: there is an input on which `TabularDataModel.column_type` (inference
over the full value list) and the typed view's `column_type` (substantive-subset
precedence) disagree: a column holding `"1"` and `""` profiles as MIXED for the
model but INTEGER for the typed view. -/
theorem claim_C10 :
    TabularDataModel.init [["a", "b"], ["1", "x"], ["", "y"]] 1 true =
      Except.ok (buildModel [["a", "b"], ["1", "x"], ["", "y"]] 1 true) ∧
    (buildModel [["a", "b"], ["1", "x"], ["", "y"]] 1 true).columnType "a" =
      Except.ok DataType.MIXED ∧
    (buildModel [["a", "b"], ["1", "x"], ["", "y"]] 1 true).typedViewColumnType "a" =
      Except.ok DataType.INTEGER ∧
    DataType.MIXED ≠ DataType.INTEGER :=
  ⟨rfl, rfl, rfl, by decide⟩

/-- Claim C8: a `type_configs` override for BOOLEAN or MIXED replaces only that
type's none default, an override for any other type replaces only that type's
empty default, and other types' defaults are untouched. -/
theorem claim_C8 (dt : DataType) (v : PyVal) :
    ((dt = DataType.BOOLEAN ∨ dt = DataType.MIXED) →
      applyTypeConfigs defaultTypeDefaults [(dt, v)] dt =
        ⟨(defaultTypeDefaults dt).emptyDefault, v⟩) ∧
    (¬(dt = DataType.BOOLEAN ∨ dt = DataType.MIXED) →
      applyTypeConfigs defaultTypeDefaults [(dt, v)] dt =
        ⟨v, (defaultTypeDefaults dt).noneDefault⟩) ∧
    (∀ dt2, dt2 ≠ dt → applyTypeConfigs defaultTypeDefaults [(dt, v)] dt2 =
      defaultTypeDefaults dt2) := by
  refine ⟨?_, ?_, ?_⟩
  · intro h
    have hmem : dt ∈ overrideNoneTypes := by
      rcases h with h | h <;> subst h <;> simp [overrideNoneTypes]
    simp [applyTypeConfigs, hmem]
  · intro h
    have hmem : dt ∉ overrideNoneTypes := by
      simp only [overrideNoneTypes, List.mem_cons, List.mem_singleton]
      intro hc
      rcases hc with hc | hc
      · exact h (Or.inl hc)
      · rcases hc with hc | hc
        · exact h (Or.inr hc)
        · simp at hc
    simp [applyTypeConfigs, hmem]
  · intro dt2 hne
    by_cases hmem : dt ∈ overrideNoneTypes <;> simp [applyTypeConfigs, hmem, hne]

/-- Witness for claim C8 at concrete overrides: BOOLEAN with `7` replaces the
none default; INTEGER with `9` replaces the empty default. -/
theorem claim_C8_witness :
    applyTypeConfigs defaultTypeDefaults [(DataType.BOOLEAN, PyVal.pyInt 7)] DataType.BOOLEAN =
      ⟨(defaultTypeDefaults DataType.BOOLEAN).emptyDefault, PyVal.pyInt 7⟩ ∧
    applyTypeConfigs defaultTypeDefaults [(DataType.INTEGER, PyVal.pyInt 9)] DataType.INTEGER =
      ⟨PyVal.pyInt 9, (defaultTypeDefaults DataType.INTEGER).noneDefault⟩ :=
  ⟨(claim_C8 DataType.BOOLEAN (PyVal.pyInt 7)).1 (Or.inl rfl),
   (claim_C8 DataType.INTEGER (PyVal.pyInt 9)).2.1 (by decide)⟩

/-- Claim C6: after a complete iteration a second iteration of the same streaming
model yields zero rows; `reset_stream` clears the buffer and the initialization
flag, leaves the (drained) stream untouched, and iteration after it still yields
zero rows. -/
theorem claim_C6 (m : StreamingModel) :
    ((m.iterate.2).iterate.1 = []) ∧
    (m.resetStream.buffer = [] ∧ m.resetStream.isInitialized = false ∧
      m.resetStream.chunks = m.chunks) ∧
    (((m.iterate.2).resetStream).iterate.1 = []) := by
  refine ⟨?_, ⟨rfl, rfl, rfl⟩, ?_⟩ <;>
    simp [StreamingModel.iterate, StreamingModel.resetStream, yieldAll]

theorem yieldRow_length (names : List String) (r : List String) :
    (yieldRow names r).1.length = (yieldRow names r).2.length := by
  simp only [yieldRow]
  by_cases h1 : r.length < names.length
  · simp only [h1, if_pos]
    simp
    omega
  · by_cases h2 : names.length < r.length
    · simp only [h1, h2, if_neg, if_pos, not_false_iff, padColumnNames_length]
      omega
    · simp only [h1, h2, if_neg, not_false_iff]
      omega

theorem yieldAll_pairs_length (rows : List (List String)) :
    ∀ names : List String, ∀ p ∈ (yieldAll names rows).1, p.1.length = p.2.length := by
  induction rows with
  | nil => intro names p hp; simp [yieldAll] at hp
  | cons r rs ih =>
    intro names p hp
    simp only [yieldAll] at hp
    rcases List.mem_cons.mp hp with h | h
    · subst h
      exact yieldRow_length names r
    · exact ih _ p h

/-- Claim C3: every row of a constructed in-memory model has exactly
`columnCount` cells, and every row yielded by the streaming model's iteration
has the length of the column-name list in force at the moment it is yielded. -/
theorem claim_C3 :
    (∀ data hr skip m, TabularDataModel.init data hr skip = Except.ok m →
      ∀ r ∈ m.data, r.length = m.columnCount) ∧
    (∀ sm : StreamingModel, ∀ p ∈ sm.iterate.1, p.1.length = p.2.length) := by
  constructor
  · intro data hr skip m hinit r hrmem
    have hm : m = buildModel data hr skip := by
      simp only [TabularDataModel.init] at hinit
      by_cases h : data.isEmpty <;> simp [h] at hinit
      exact hinit.symm
    subst hm
    exact buildModel_row_length data hr skip r hrmem
  · intro sm p hp
    simp only [StreamingModel.iterate] at hp
    rcases List.mem_append.mp hp with h | h
    · exact yieldAll_pairs_length _ _ p h
    · exact yieldAll_pairs_length _ _ p h

/-- Witness for claim C3: a concrete two-column model whose data row has both
cells, and a concrete streaming yield whose row got its names auto-extended. -/
theorem claim_C3_witness :
    ((["1", "2"] : List String).length =
      (buildModel [["h1", "h2"], ["1", "2"]] 1 true).columnCount) ∧
    ((["1", "2"] : List String).length = (["h", "column_1"] : List String).length) :=
  ⟨claim_C3.1 [["h1", "h2"], ["1", "2"]] 1 true _ rfl ["1", "2"] (by decide),
   claim_C3.2 (initializeFromStream [[["h"], ["1", "2"]]] 1 true)
     (["1", "2"], ["h", "column_1"]) (by decide)⟩

theorem should_skip_row_pad (r : List String) (k : Nat) :
    should_skip_row (r ++ List.replicate k "") = should_skip_row r := by
  simp only [should_skip_row, List.all_append, Bool.and_eq_true]
  have : (List.replicate k ("" : String)).all (fun c => pyStrip c = "") = true := by
    rw [List.all_eq_true]
    intro x hx
    rw [List.eq_of_mem_replicate hx]
    decide
  rw [this]
  simp

/-- Claim C9: row normalization is idempotent for any fixed `skip_empty_rows`. -/
theorem claim_C9 (rows : List (List String)) (skip : Bool) :
    normalize_rows (normalize_rows rows skip) skip = normalize_rows rows skip := by
  cases hout : normalize_rows rows skip with
  | nil => simp [normalize_rows]
  | cons x xs =>
    have hsurv : (if skip then (x :: xs).filter (fun r => !(should_skip_row r))
        else x :: xs) = x :: xs := by
      cases skip with
      | false => rfl
      | true =>
        simp only [if_pos]
        rw [List.filter_eq_self]
        intro a ha
        have ha' : a ∈ normalize_rows rows true := by rw [hout]; exact ha
        simp only [normalize_rows, if_pos, List.mem_map] at ha'
        obtain ⟨s, hs, rfl⟩ := ha'
        rw [List.mem_filter] at hs
        rw [should_skip_row_pad]
        exact hs.2
    have hlen : ∀ r ∈ x :: xs, r.length = x.length := by
      intro r hr
      have h1 : r ∈ normalize_rows rows skip := by rw [hout]; exact hr
      have h2 : x ∈ normalize_rows rows skip := by rw [hout]; exact List.mem_cons_self x xs
      exact normalize_rows_mem_length rows skip r h1 x h2
    have hwidth : (x :: xs).foldl (fun a r => max a r.length) 0 = x.length :=
      foldl_max_all_eq (x :: xs) x.length hlen (by simp)
    show normalize_rows (x :: xs) skip = x :: xs
    simp only [normalize_rows, hsurv, hwidth]
    have : ∀ r ∈ x :: xs, r ++ List.replicate (x.length - r.length) "" = r := by
      intro r hr
      rw [hlen r hr]
      simp
    calc (x :: xs).map (fun r => r ++ List.replicate (x.length - r.length) "")
        = (x :: xs).map id := List.map_congr_left (by intro a ha; rw [this a ha]; rfl)
      _ = x :: xs := List.map_id _

theorem mergedNameAt_eq_claim (headerData : List (List String)) (i : Nat) :
    mergedNameAt headerData i = claimMergedName headerData i := by
  have h : headerData.filterMap (fun row =>
      match row[i]? with
      | some c => if pyStrip c = "" then Option.none else some (pyStrip c)
      | none => Option.none) =
      (headerData.map (fun row => pyStrip (row.getD i ""))).filter (fun c => c ≠ "") := by
    induction headerData with
    | nil => rfl
    | cons row rest ih =>
      simp only [List.filterMap_cons, List.map_cons, List.filter_cons]
      cases hg : row[i]? with
      | none =>
        have hd : row.getD i "" = "" := by simp [List.getD, hg]
        have hps : pyStrip "" = "" := rfl
        simp [hg, hd, hps, ih]
      | some c =>
        have hd : row.getD i "" = c := by simp [List.getD, hg]
        by_cases hc : pyStrip c = ""
        · simp [hg, hd, hc, ih]
        · simp [hg, hd, hc, ih]
  simp only [mergedNameAt, claimMergedName, List.get?_eq_getElem?, h, List.isEmpty_iff]

/-- Claim C2: with more than one header row, `process_headers` collapses the
header rows to a single merged row whose name at each position is the
underscore-join of the non-empty trimmed cells at that position (missing cells
of shorter rows count as empty, all-empty positions become `column_<i>`); in
particular the spec's two-row example merges to `Personal_Name, Personal_Age`. -/
theorem claim_C2 (headerData : List (List String)) (n : Nat)
    (h1 : 1 < n) (h2 : headerData ≠ []) :
    (∃ names, process_headers headerData n = ([names], names) ∧
      names.length = maxRowLength headerData ∧
      ∀ i, i < maxRowLength headerData →
        names.get? i = some (claimMergedName headerData i)) ∧
    process_headers [["Personal", "Personal"], ["Name", "Age"]] 2 =
      ([["Personal_Name", "Personal_Age"]], ["Personal_Name", "Personal_Age"]) := by
  constructor
  · refine ⟨(List.range (maxRowLength headerData)).map (fun i => mergedNameAt headerData i),
      ?_, ?_, ?_⟩
    · simp only [process_headers, Bool.or_eq_true, decide_eq_true_eq,
        List.isEmpty_iff]
      rw [if_neg, if_neg]
      · omega
      · rintro (h | h)
        · omega
        · exact h2 h
    · simp
    · intro i hi
      rw [List.get?_eq_getElem?, List.getElem?_map, List.getElem?_range hi]
      simp [mergedNameAt_eq_claim]
  · rfl

/-- Witness for claim C2 at the spec's example header rows. -/
theorem claim_C2_witness :
    process_headers [["Personal", "Personal"], ["Name", "Age"]] 2 =
      ([["Personal_Name", "Personal_Age"]], ["Personal_Name", "Personal_Age"]) :=
  (claim_C2 [["Personal", "Personal"], ["Name", "Age"]] 2 (by omega) (by decide)).2

theorem findLastIdx_none (names : List String) (key : String)
    (h : findLastIdx names key = Option.none) : ∀ j : Nat, names[j]? ≠ some key := by
  induction names with
  | nil => intro j; simp
  | cons n rest ih =>
    intro j
    simp only [findLastIdx] at h
    cases hr : findLastIdx rest key with
    | some j' =>
      rw [hr] at h
      simp at h
    | none =>
      rw [hr] at h
      by_cases hn : n = key
      · rw [if_pos hn] at h
        simp at h
      · cases j with
        | zero => simp [hn]
        | succ j' =>
          simp only [List.getElem?_cons_succ]
          exact ih hr j'

theorem findLastIdx_spec (names : List String) (key : String) :
    ∀ j : Nat, findLastIdx names key = some j →
      names[j]? = some key ∧ ∀ l : Nat, j < l → names[l]? ≠ some key := by
  induction names with
  | nil => intro j h; simp [findLastIdx] at h
  | cons n rest ih =>
    intro j h
    simp only [findLastIdx] at h
    cases hr : findLastIdx rest key with
    | some j' =>
      rw [hr] at h
      have hj : j' + 1 = j := by injection h
      subst hj
      obtain ⟨h1, h2⟩ := ih j' hr
      constructor
      · simpa using h1
      · intro l hl
        cases l with
        | zero => omega
        | succ l' =>
          simp only [List.getElem?_cons_succ]
          exact h2 l' (by omega)
    | none =>
      rw [hr] at h
      by_cases hn : n = key
      · rw [if_pos hn] at h
        have hj : (0 : Nat) = j := by injection h
        subst hj
        constructor
        · simp [hn]
        · intro l hl
          cases l with
          | zero => omega
          | succ l' =>
            simp only [List.getElem?_cons_succ]
            exact findLastIdx_none rest key hr l'
      · rw [if_neg hn] at h
        simp at h

theorem findLastIdx_of_mem (names : List String) (key : String) (h : key ∈ names) :
    ∃ j, findLastIdx names key = some j := by
  induction names with
  | nil => simp at h
  | cons n rest ih =>
    simp only [findLastIdx]
    rcases List.mem_cons.mp h with h1 | h1
    · cases hr : findLastIdx rest key with
      | some j => exact ⟨j + 1, rfl⟩
      | none => exact ⟨0, by rw [if_pos h1.symm]⟩
    · obtain ⟨j, hj⟩ := ih h1
      rw [hj]
      exact ⟨j + 1, rfl⟩

theorem buildIndexMapFrom_eq (names : List String) :
    ∀ (start : Nat) (acc : String → Option Nat) (key : String),
      buildIndexMapFrom names start acc key =
        match findLastIdx names key with
        | some j => some (start + j)
        | none => acc key := by
  induction names with
  | nil => intro start acc key; rfl
  | cons n rest ih =>
    intro start acc key
    simp only [buildIndexMapFrom, findLastIdx]
    rw [ih]
    cases hr : findLastIdx rest key with
    | some j =>
      have harith : start + 1 + j = start + (j + 1) := by omega
      simp [hr, harith]
    | none =>
      by_cases hn : key = n
      · simp [hr, hn]
      · have hn2 : ¬(n = key) := fun hh => hn hh.symm
        simp [hr, hn, hn2]

theorem columnIndex_eq_findLast (m : Model) (name : String) (h : name ∈ m.columnNames) :
    ∃ j, findLastIdx m.columnNames name = some j ∧ m.columnIndex name = Except.ok j := by
  obtain ⟨j, hj⟩ := findLastIdx_of_mem _ _ h
  refine ⟨j, hj, ?_⟩
  simp only [Model.columnIndex, if_pos h, Model.columnIndexMap]
  rw [buildIndexMapFrom_eq]
  simp [hj]

/-- Claim C4 amended: for a duplicated column name, `column_index` returns the
last (largest) index at which the name occurs — the dict comprehension building
the index map lets later positions overwrite earlier ones. -/
theorem claim_C4_amended (m : Model) (name : String) (h : name ∈ m.columnNames) :
    ∃ i : Nat, m.columnIndex name = Except.ok i ∧ m.columnNames[i]? = some name ∧
      ∀ j : Nat, i < j → m.columnNames[j]? ≠ some name := by
  obtain ⟨j, hj, hok⟩ := columnIndex_eq_findLast m name h
  obtain ⟨h1, h2⟩ := findLastIdx_spec _ _ j hj
  exact ⟨j, hok, h1, h2⟩

/-- Counterexample to claim C4 as stated: with duplicate column names `a, a`,
`column_index("a")` returns index 1, not the first (smallest) index 0. -/
theorem claim_C4_counterexample :
    (buildModel [["a", "a"], ["1", "2"]] 1 true).columnNames = ["a", "a"] ∧
    (buildModel [["a", "a"], ["1", "2"]] 1 true).columnIndex "a" = Except.ok 1 ∧
    (buildModel [["a", "a"], ["1", "2"]] 1 true).columnIndex "a" ≠ Except.ok 0 := by
  refine ⟨rfl, rfl, ?_⟩
  intro hc
  have h2 : (Except.ok 1 : Except PyError Nat) = Except.ok 0 :=
    (show (buildModel [["a", "a"], ["1", "2"]] 1 true).columnIndex "a" = Except.ok 1
      from rfl).symm.trans hc
  injection h2 with h3
  exact absurd h3 (by decide)

/-- Witness for the amended claim C4 at the duplicate-name model: the returned
index 1 indeed holds the name. -/
theorem claim_C4_witness :
    (buildModel [["a", "a"], ["1", "2"]] 1 true).columnNames[1]? = some "a" := by
  obtain ⟨i, h1, h2, h3⟩ :=
    claim_C4_amended (buildModel [["a", "a"], ["1", "2"]] 1 true) "a" (by decide)
  have h4 : (buildModel [["a", "a"], ["1", "2"]] 1 true).columnIndex "a" = Except.ok 1 := rfl
  rw [h1] at h4
  injection h4 with h5
  rw [h5] at h2
  exact h2

theorem dictOfPairs_mem_keys (ps : List (String × String)) :
    ∀ p ∈ dictOfPairs ps, p.1 ∈ ps.map Prod.fst := by
  induction ps with
  | nil => intro p hp; simp [dictOfPairs] at hp
  | cons q rest ih =>
    intro p hp
    obtain ⟨k, v⟩ := q
    simp only [dictOfPairs] at hp
    cases hf : (dictOfPairs rest).find? (fun p => p.1 = k) with
    | some q' =>
      rw [hf] at hp
      rcases List.mem_cons.mp hp with h | h
      · subst h; simp
      · have := ih p (List.mem_of_mem_filter h)
        simp only [List.map_cons, List.mem_cons]
        exact Or.inr this
    | none =>
      rw [hf] at hp
      rcases List.mem_cons.mp hp with h | h
      · subst h; simp
      · have := ih p h
        simp only [List.map_cons, List.mem_cons]
        exact Or.inr this

theorem dictOfPairs_eq_self (ps : List (String × String))
    (h : (ps.map Prod.fst).Nodup) : dictOfPairs ps = ps := by
  induction ps with
  | nil => rfl
  | cons q rest ih =>
    obtain ⟨k, v⟩ := q
    simp only [List.map_cons, List.nodup_cons] at h
    obtain ⟨hk, hrest⟩ := h
    have hf : (dictOfPairs rest).find? (fun p => p.1 = k) = Option.none := by
      rw [List.find?_eq_none]
      intro p hp
      simp only [decide_eq_true_eq]
      intro heq
      exact hk (heq ▸ dictOfPairs_mem_keys rest p hp)
    simp only [dictOfPairs, hf]
    rw [ih hrest]

theorem map_getD_range_eq_take (l : List String) :
    ∀ count : Nat, count ≤ l.length →
      (List.range count).map (fun i => l.getD i "") = l.take count := by
  induction l with
  | nil =>
    intro count hc
    have hc0 : count = 0 := by simpa using hc
    subst hc0
    rfl
  | cons x xs ih =>
    intro count hc
    cases count with
    | zero => rfl
    | succ c =>
      rw [List.range_succ_eq_map]
      simp only [List.map_cons, List.map_map]
      have h0 : (x :: xs).getD 0 "" = x := rfl
      have hcomp : ((fun i => (x :: xs).getD i "") ∘ Nat.succ) = (fun i => xs.getD i "") := by
        funext i
        rfl
      rw [h0, hcomp, ih c (by simpa using hc)]
      rw [List.take_succ_cons]

theorem buildModel_columnCount_le (data : List (List String)) (hr : Nat) (skip : Bool) :
    (buildModel data hr skip).columnCount ≤ (buildModel data hr skip).columnNames.length := by
  simp only [buildModel, padColumnNames_length]
  omega

/-- Claim C5 amended: for a model whose first `column_count` column names are
pairwise distinct, `row(i)`, `row_as_list(i)` and `row_as_tuple(i)` agree — the
dict's values in column order are exactly the list/tuple row.  (With duplicated
names the dict collapses keys, see the counterexample.) -/
theorem claim_C5_amended (data : List (List String)) (hr : Nat) (skip : Bool) (m : Model)
    (hinit : TabularDataModel.init data hr skip = Except.ok m)
    (hnodup : (m.columnNames.take m.columnCount).Nodup) :
    ∀ index : Int, 0 ≤ index → index < (m.rowCount : Int) →
      ∃ r d, m.rowAsList index = Except.ok r ∧ m.rowAsTuple index = Except.ok r ∧
        m.row index = Except.ok d ∧ d.map Prod.snd = r := by
  have hm : m = buildModel data hr skip := by
    simp only [TabularDataModel.init] at hinit
    by_cases h : data.isEmpty <;> simp [h] at hinit
    exact hinit.symm
  intro index h0 hlt
  obtain ⟨n, rfl⟩ := Int.eq_ofNat_of_zero_le h0
  have hn : n < m.rowCount := by exact_mod_cast hlt
  have hcnt : m.rowCount = m.data.length := by rw [hm]; rfl
  have hlen : n < m.data.length := by omega
  obtain ⟨r, hrow⟩ : ∃ r, m.data[n]? = some r := by
    rw [List.getElem?_eq_getElem hlen]
    exact ⟨_, rfl⟩
  have hmem : r ∈ m.data := List.mem_iff_getElem?.mpr ⟨n, hrow⟩
  have hrl : r.length = m.columnCount := by
    rw [hm] at hmem ⊢
    exact buildModel_row_length data hr skip r hmem
  have htoNat : ((n : Int)).toNat = n := Int.toNat_natCast n
  have hcond : ¬((decide ((n : Int) < 0) || decide ((n : Int) ≥ (m.rowCount : Int))) = true) := by
    simp only [Bool.or_eq_true, decide_eq_true_eq]
    rintro (hbad | hbad) <;> omega
  have hle : m.columnCount ≤ m.columnNames.length := by
    rw [hm]
    exact buildModel_columnCount_le data hr skip
  have hkeys : ((List.range m.columnCount).map
      (fun i => (m.columnNames.getD i "", r.getD i ""))).map Prod.fst =
      m.columnNames.take m.columnCount := by
    rw [List.map_map]
    exact map_getD_range_eq_take m.columnNames m.columnCount hle
  have hvals : ((List.range m.columnCount).map
      (fun i => (m.columnNames.getD i "", r.getD i ""))).map Prod.snd = r := by
    rw [List.map_map]
    have h1 := map_getD_range_eq_take r m.columnCount (by omega)
    have h2 : r.take m.columnCount = r := by
      rw [← hrl]
      exact List.take_length r
    exact h1.trans h2
  refine ⟨r, (List.range m.columnCount).map
    (fun i => (m.columnNames.getD i "", r.getD i "")), ?_, ?_, ?_, hvals⟩
  · simp only [Model.rowAsList]
    rw [if_neg hcond, htoNat, List.get?_eq_getElem?, hrow]
  · simp only [Model.rowAsTuple]
    rw [if_neg hcond, htoNat, List.get?_eq_getElem?, hrow]
  · simp only [Model.row]
    rw [if_neg hcond, htoNat, List.get?_eq_getElem?, hrow]
    have hpad : r ++ List.replicate (m.columnCount - r.length) "" = r := by
      rw [hrl]
      simp
    simp only [hpad]
    rw [dictOfPairs_eq_self _ (by rw [hkeys]; exact hnodup)]

/-- Counterexample to claim C5 as stated: with duplicate column names `a, a`,
the `row(0)` dict collapses to one entry, so its values `["2"]` differ from
`row_as_list(0) = ["1", "2"]`. -/
theorem claim_C5_counterexample :
    (buildModel [["a", "a"], ["1", "2"]] 1 true).row 0 = Except.ok [("a", "2")] ∧
    (buildModel [["a", "a"], ["1", "2"]] 1 true).rowAsList 0 = Except.ok ["1", "2"] ∧
    ([("a", "2")] : List (String × String)).map Prod.snd ≠ ["1", "2"] :=
  ⟨rfl, rfl, by decide⟩

/-- Witness for the amended claim C5 at a distinct-name model. -/
theorem claim_C5_witness :
    (buildModel [["a", "b"], ["1", "2"]] 1 true).rowAsList 0 = Except.ok ["1", "2"] ∧
    (buildModel [["a", "b"], ["1", "2"]] 1 true).row 0 = Except.ok [("a", "1"), ("b", "2")] ∧
    ([("a", "1"), ("b", "2")] : List (String × String)).map Prod.snd = ["1", "2"] := by
  obtain ⟨r, d, h1, h2, h3, h4⟩ :=
    claim_C5_amended [["a", "b"], ["1", "2"]] 1 true _ rfl (by decide) 0 (by decide) (by decide)
  have hrv : r = ["1", "2"] := by
    have hcomp : (buildModel [["a", "b"], ["1", "2"]] 1 true).rowAsList 0 =
      Except.ok ["1", "2"] := rfl
    have := h1.symm.trans hcomp
    injection this
  have hdv : d = [("a", "1"), ("b", "2")] := by
    have hcomp : (buildModel [["a", "b"], ["1", "2"]] 1 true).row 0 =
      Except.ok [("a", "1"), ("b", "2")] := rfl
    have := h3.symm.trans hcomp
    injection this
  subst hrv
  subst hdv
  exact ⟨h1, h3, h4⟩

theorem except_bind_ok {α β : Type} (a : α) (f : α → Except PyError β) :
    (Except.ok a >>= f) = f a := rfl

theorem claim_C7_body (data : List (List String)) (hr : Nat) (skip : Bool) (m : Model)
    (name : String) (i : Nat)
    (hinit : TabularDataModel.init data hr skip = Except.ok m)
    (hidx : m.columnIndex name = Except.ok i) (hic : i < m.columnCount)
    (row_index : Int) :
    ((row_index < 0 ∨ (m.rowCount : Int) ≤ row_index) →
      m.cellValue name row_index = Except.error PyError.splurgeLookupError) ∧
    (0 ≤ row_index → row_index < (m.rowCount : Int) →
      ∃ row v, m.data[row_index.toNat]? = some row ∧ row[i]? = some v ∧
        m.cellValue name row_index = Except.ok v) := by
  have hm : m = buildModel data hr skip := by
    simp only [TabularDataModel.init] at hinit
    by_cases h : data.isEmpty <;> simp [h] at hinit
    exact hinit.symm
  constructor
  · intro h
    have hcond : (decide (row_index < 0) || decide (row_index ≥ (m.rowCount : Int))) = true := by
      rcases h with h | h
      · simp [h]
      · simp [ge_iff_le, h]
    simp only [Model.cellValue, hidx, except_bind_ok]
    rw [if_pos hcond]
  · intro h0 hlt
    obtain ⟨n, rfl⟩ := Int.eq_ofNat_of_zero_le h0
    have hn : n < m.rowCount := by exact_mod_cast hlt
    have hcnt : m.rowCount = m.data.length := by rw [hm]; rfl
    have hlen : n < m.data.length := by omega
    obtain ⟨row, hrow⟩ : ∃ row, m.data[n]? = some row := by
      rw [List.getElem?_eq_getElem hlen]
      exact ⟨_, rfl⟩
    have hmem : row ∈ m.data := List.mem_iff_getElem?.mpr ⟨n, hrow⟩
    have hrl : row.length = m.columnCount := by
      rw [hm] at hmem ⊢
      exact buildModel_row_length data hr skip row hmem
    have hiv : i < row.length := by omega
    obtain ⟨v, hv⟩ : ∃ v, row[i]? = some v := by
      rw [List.getElem?_eq_getElem hiv]
      exact ⟨_, rfl⟩
    have htoNat : ((n : Int)).toNat = n := Int.toNat_natCast n
    refine ⟨row, v, by rw [htoNat]; exact hrow, hv, ?_⟩
    have hcond : ¬((decide ((n : Int) < 0) || decide ((n : Int) ≥ (m.rowCount : Int))) = true) := by
      simp only [Bool.or_eq_true, decide_eq_true_eq]
      rintro (hbad | hbad) <;> omega
    simp only [Model.cellValue, hidx, except_bind_ok]
    rw [if_neg hcond, htoNat, List.get?_eq_getElem?, hrow]
    show (match row.get? i with
      | some v => Except.ok v
      | none => Except.error PyError.indexError) = Except.ok v
    rw [List.get?_eq_getElem?, hv]

/-- Claim C7 amended: with `name` resolving to a column index below
`column_count` (always the case when no more names than data columns are
declared), `cell_value` raises the lookup error exactly on row indices outside
`[0, row_count)` and returns the stored cell otherwise.  (A name resolving at or
beyond `column_count` instead hits Python's `IndexError` on in-range rows, see
the counterexample.) -/
theorem claim_C7_amended (data : List (List String)) (hr : Nat) (skip : Bool) (m : Model)
    (name : String) (i : Nat)
    (hinit : TabularDataModel.init data hr skip = Except.ok m)
    (hidx : m.columnIndex name = Except.ok i) (hic : i < m.columnCount) :
    ∀ row_index : Int,
      ((row_index < 0 ∨ (m.rowCount : Int) ≤ row_index) →
        m.cellValue name row_index = Except.error PyError.splurgeLookupError) ∧
      (0 ≤ row_index → row_index < (m.rowCount : Int) →
        ∃ row v, m.data[row_index.toNat]? = some row ∧ row[i]? = some v ∧
          m.cellValue name row_index = Except.ok v) :=
  fun row_index => claim_C7_body data hr skip m name i hinit hidx hic row_index

/-- Counterexample to claim C7 as stated: when the header declares more names
than the data has columns, `cell_value` on the extra name raises `IndexError`
(not the library's lookup error) at an in-range row index, instead of returning
a stored string. -/
theorem claim_C7_counterexample :
    TabularDataModel.init [["a", "b", "c"], ["1", "2"]] 1 true =
      Except.ok (buildModel [["a", "b", "c"], ["1", "2"]] 1 true) ∧
    "c" ∈ (buildModel [["a", "b", "c"], ["1", "2"]] 1 true).columnNames ∧
    (buildModel [["a", "b", "c"], ["1", "2"]] 1 true).rowCount = 1 ∧
    (buildModel [["a", "b", "c"], ["1", "2"]] 1 true).cellValue "c" 0 =
      Except.error PyError.indexError :=
  ⟨rfl, by decide, rfl, rfl⟩

/-- Witness for the amended claim C7: out-of-range indices `-1` and `2` raise
the lookup error, the in-range index `1` returns the stored cell `"y"`. -/
theorem claim_C7_witness :
    (buildModel [["a", "b"], ["1", "x"], ["", "y"]] 1 true).cellValue "b" (-1) =
      Except.error PyError.splurgeLookupError ∧
    (buildModel [["a", "b"], ["1", "x"], ["", "y"]] 1 true).cellValue "b" 2 =
      Except.error PyError.splurgeLookupError ∧
    (buildModel [["a", "b"], ["1", "x"], ["", "y"]] 1 true).cellValue "b" 1 =
      Except.ok "y" := by
  have h := claim_C7_amended [["a", "b"], ["1", "x"], ["", "y"]] 1 true
    (buildModel [["a", "b"], ["1", "x"], ["", "y"]] 1 true) "b" 1 rfl rfl (by decide)
  refine ⟨(h (-1)).1 (Or.inl (by decide)), (h 2).1 (Or.inr (by decide)), ?_⟩
  obtain ⟨row, v, h1, h2, h3⟩ := (h 1).2 (by decide) (by decide)
  have hrowv : row = ["", "y"] := by
    have hcomp : (buildModel [["a", "b"], ["1", "x"], ["", "y"]] 1 true).data[(1 : Int).toNat]? =
      some ["", "y"] := rfl
    have := h1.symm.trans hcomp
    injection this
  subst hrowv
  have hvv : v = "y" := by
    have hcomp : (["", "y"] : List String)[1]? = some "y" := rfl
    have := h2.symm.trans hcomp
    injection this
  subst hvv
  exact h3

theorem typedColumnType_eq_claim (values : List String) :
    typedColumnType values = claimTypedRule values := by
  simp only [typedColumnType, claimTypedRule]
  by_cases he : values.filter (fun v => !(is_empty_like v) && !(is_none_like v)) = []
  · simp [he]
  · by_cases hmx :
      profile_values (values.filter (fun v => !(is_empty_like v) && !(is_none_like v))) =
        DataType.MIXED
    · simp [he, hmx, List.isEmpty_iff]
    · simp [he, hmx, List.isEmpty_iff]

theorem pyColumn_ok (rows : List (List String)) (i : Nat)
    (h : ∀ r ∈ rows, i < r.length) :
    pyColumn rows i = Except.ok (rows.map (fun r => r.getD i "")) := by
  induction rows with
  | nil => rfl
  | cons r rs ih =>
    have h1 : i < r.length := h r (List.mem_cons_self _ _)
    have h2 : r.get? i = some (r.getD i "") := by
      rw [List.get?_eq_getElem?, List.getElem?_eq_getElem h1]
      congr 1
      simp [List.getD, List.getElem?_eq_getElem h1]
    simp only [pyColumn, h2, ih (fun a ha => h a (List.mem_cons_of_mem _ ha)), List.map_cons]

theorem columnValues_ok (data : List (List String)) (hr : Nat) (skip : Bool) (m : Model)
    (name : String) (i : Nat)
    (hinit : TabularDataModel.init data hr skip = Except.ok m)
    (hidx : m.columnIndex name = Except.ok i) (hic : i < m.columnCount) :
    m.columnValues name = Except.ok (m.data.map (fun r => r.getD i "")) := by
  have hm : m = buildModel data hr skip := by
    simp only [TabularDataModel.init] at hinit
    by_cases h : data.isEmpty <;> simp [h] at hinit
    exact hinit.symm
  have hlen : ∀ r ∈ m.data, i < r.length := by
    intro r hrm
    have : r.length = m.columnCount := by
      rw [hm] at hrm ⊢
      exact buildModel_row_length data hr skip r hrm
    omega
  simp only [Model.columnValues, hidx, except_bind_ok]
  exact pyColumn_ok m.data i hlen

/-- Claim C1 amended: for a column name resolving to an index below
`column_count`, the typed view's `column_type` is inference over the substantive
(non-empty, non-none) values when that subset is non-empty and does not profile
as MIXED, and inference over the full value list otherwise.  (A name resolving
at or beyond `column_count` raises `IndexError` while fetching the column's
values, see the counterexample.) -/
theorem claim_C1_amended (data : List (List String)) (hr : Nat) (skip : Bool) (m : Model)
    (name : String) (i : Nat)
    (hinit : TabularDataModel.init data hr skip = Except.ok m)
    (hidx : m.columnIndex name = Except.ok i) (hic : i < m.columnCount) :
    ∃ values, m.columnValues name = Except.ok values ∧
      m.typedViewColumnType name = Except.ok (claimTypedRule values) := by
  have hcv := columnValues_ok data hr skip m name i hinit hidx hic
  refine ⟨m.data.map (fun r => r.getD i ""), hcv, ?_⟩
  simp only [Model.typedViewColumnType, hcv, except_bind_ok]
  simp [typedColumnType_eq_claim, pure, Except.pure]

/-- Counterexample to claim C1 as stated: the name `c` is present in
`column_names` but its position is beyond the data's columns, so the typed
view's `column_type` raises `IndexError` and produces no inference result. -/
theorem claim_C1_counterexample :
    "c" ∈ (buildModel [["a", "b", "c"], ["1", "2"]] 1 true).columnNames ∧
    (buildModel [["a", "b", "c"], ["1", "2"]] 1 true).typedViewColumnType "c" =
      Except.error PyError.indexError :=
  ⟨by decide, rfl⟩

/-- Witness for the amended claim C1 at a one-column integer model: its typed
column type is the claim's rule applied to the column values. -/
theorem claim_C1_witness :
    (buildModel [["h"], ["1"], ["2"]] 1 true).typedViewColumnType "h" =
      Except.ok (claimTypedRule ["1", "2"]) := by
  obtain ⟨values, hv, ht⟩ := claim_C1_amended [["h"], ["1"], ["2"]] 1 true
    (buildModel [["h"], ["1"], ["2"]] 1 true) "h" 0 rfl rfl (by decide)
  have hvv : values = ["1", "2"] := by
    have hcomp : (buildModel [["h"], ["1"], ["2"]] 1 true).columnValues "h" =
      Except.ok ["1", "2"] := rfl
    have := hv.symm.trans hcomp
    injection this
  subst hvv
  exact ht

end SplurgeTabular
